import Mathlib

/-!
Verification of the directory-scanner (src/main.py) against its
natural-language specification.  The Python source is shallowly embedded:
pure fragments become Lean functions, the recursive traversals become
structural recursions over an explicit filesystem-tree type, and the
stateful counters (`nonlocal file_counts, total_files` plus the tqdm
progress bar) become explicit state passing.
-/

namespace DirScan

/-! ### Strings: Python `pathlib.Path(name).suffix` and `str.lower` -/

/-- Index of the last occurrence of a dot in a character list
(Python `name.rfind(".")`), accumulator style. -/
def rfindDotAux : List Char → Nat → Option Nat → Option Nat
  | [], _, acc => acc
  | c :: rest, i, acc => rfindDotAux rest (i + 1) (if c = '.' then some i else acc)

/-- Python `name.rfind(".")`: index of the last dot, if any. -/
def rfindDot (cs : List Char) : Option Nat := rfindDotAux cs 0 none

/-- Python 3.12 `pathlib.PurePath(name).suffix` for a bare entry name:
with `i = name.rfind(".")`, the suffix is `name[i:]` when `0 < i < len(name)-1`
and the empty string otherwise (no dot, leading dot, or trailing dot). -/
def pySuffix (name : String) : String :=
  let cs := name.toList
  match rfindDot cs with
  | none => ""
  | some i => if 0 < i ∧ i + 1 < cs.length then String.mk (cs.drop i) else ""

/-- ASCII model of Python `str.lower`. -/
def pyLower (s : String) : String := String.mk (s.toList.map Char.toLower)

/-! ### The classifier and the count dictionary

`count_files_local` (src/main.py lines 126-133) and `count_files_ssh`
(lines 159-164) share the same matching logic:
`file_ext = Path(file).suffix.lower()` followed by `if file_ext in extensions`.
-/

/-- The path classifier of src/main.py lines 127-128 / 161-162: the
lowercased suffix of the filename is tested for membership in the
configured `extensions` list (no normalization of the list's elements). -/
def matchesExt (filename : String) (extensions : List String) : Bool :=
  extensions.contains (pyLower (pySuffix filename))

/-- One Python-dict insertion of the comprehension
`{ext: 0 for ext in extensions}` (line 115 / 143): a repeated key is
overwritten with the same value 0, a fresh key is appended. -/
def dictInsert0 (d : List (String × Nat)) (k : String) : List (String × Nat) :=
  if k ∈ d.map Prod.fst then d else d ++ [(k, 0)]

/-- `file_counts = {ext: 0 for ext in extensions}` (line 115 / 143). -/
def initCounts (extensions : List String) : List (String × Nat) :=
  extensions.foldl dictInsert0 []

/-- `file_counts[file_ext] += 1` (line 129 / 163): increment the value at
the first (unique, for a Python dict) matching key. -/
def incr : List (String × Nat) → String → List (String × Nat)
  | [], _ => []
  | (a, v) :: rest, k => if a = k then (a, v + 1) :: rest else (a, v) :: incr rest k

/-- Sum of the per-extension counters, `sum(file_counts.values())`. -/
def countsSum (d : List (String × Nat)) : Nat := (d.map Prod.snd).sum

/-- Processing of one file name by lines 126-133 / 159-164: compute the
lowercased suffix, and when it is a member of `extensions` increment
that suffix's counter and the running total. -/
def processFileL (extensions : List String) (st : List (String × Nat) × Nat)
    (file : String) : List (String × Nat) × Nat :=
  let fileExt := pyLower (pySuffix file)
  if extensions.contains fileExt then (incr st.1 fileExt, st.2 + 1) else st

/-- The invariant of a `(file_counts, total_files)` pair relative to the
configured extension list: the total equals the sum of the per-extension
counters, and every configured extension is a key of the dict (as
established by line 115 / 143 and preserved throughout). -/
def countsOk (extensions : List String) (p : List (String × Nat) × Nat) : Prop :=
  p.2 = countsSum p.1 ∧ ∀ e ∈ extensions, e ∈ p.1.map Prod.fst

/-! ### The filesystem tree

A directory tree as the traversals observe it: a directory node carries a
readability flag (whether `listdir` / `os.scandir` on it succeeds) and its
listing, a list of entries which are files or subdirectories.  The listing
is encoded by a dedicated mutual inductive so that all recursions below
are structural and compute by `rfl`/`decide`.
-/

mutual

inductive FSTree where
  | node (readable : Bool) (entries : FSEntries)

inductive FSEntries where
  | nil
  | consFile (name : String) (rest : FSEntries)
  | consDir (name : String) (sub : FSTree) (rest : FSEntries)

end

/-- Readability flag of a tree's root directory. -/
def isReadableRoot : FSTree → Bool
  | .node r _ => r

/-! ### `count_files_ssh` (src/main.py lines 141-172)

State of the remote scan: the `nonlocal file_counts` dict, the
`nonlocal total_files` counter and the number of `pbar.update(1)` calls
performed so far. -/

structure ScanState where
  fileCounts : List (String × Nat)
  totalFiles : Nat
  pbar : Nat

/-- `pbar.update(1)` (line 152), executed first in `recursive_search`,
inside the `try`, before `listdir_attr`. -/
def pbarTick (st : ScanState) : ScanState := { st with pbar := st.pbar + 1 }

/-- The counter components of the scan state (the returned
`(file_counts, total_files)` of line 172; `pbar` is not returned). -/
def countsOf (st : ScanState) : List (String × Nat) × Nat :=
  (st.fileCounts, st.totalFiles)

/-- The file-entry branch of `recursive_search` (lines 159-164), the same
body as `processFileL`, acting on the full scan state. -/
def processFileEntry (extensions : List String) (st : ScanState)
    (name : String) : ScanState :=
  let p := processFileL extensions (st.fileCounts, st.totalFiles) name
  { st with fileCounts := p.1, totalFiles := p.2 }

mutual

/-- `recursive_search(path, pbar)` (lines 149-167): tick the progress bar,
then, when `listdir_attr(path)` succeeds, iterate over the listing; when it
raises (`PermissionError` / `FileNotFoundError` / `OSError`), the handler
at line 166 swallows the error, so the directory contributes nothing
beyond its progress tick. -/
def recursiveSearch (extensions : List String) (t : FSTree) (st : ScanState) : ScanState :=
  match t with
  | .node true es => searchEntries extensions es (pbarTick st)
  | .node false _ => pbarTick st

/-- The `for item in listdir_attr(path)` loop of lines 153-164: a
directory entry is recursed into, a file entry is classified and counted. -/
def searchEntries (extensions : List String) (es : FSEntries) (st : ScanState) : ScanState :=
  match es with
  | .nil => st
  | .consFile n rest => searchEntries extensions rest (processFileEntry extensions st n)
  | .consDir _ sub rest => searchEntries extensions rest (recursiveSearch extensions sub st)

end

/-- The scan state at the start of `count_files_ssh`: fresh dict from the
configured extensions, zero total, progress bar at zero. -/
def initScanState (extensions : List String) : ScanState :=
  { fileCounts := initCounts extensions, totalFiles := 0, pbar := 0 }

/-- `count_files_ssh(directory, extensions)` (lines 141-172): run
`recursive_search` on the root from the fresh state. -/
def countFilesSsh (extensions : List String) (t : FSTree) : ScanState :=
  recursiveSearch extensions t (initScanState extensions)

/-! ### `count_directories_ssh` (src/main.py lines 95-111) -/

mutual

/-- `recursive_count(path)` (lines 99-108): `count += 1` inside the `try`,
before `listdir_attr`, so an unreadable directory is still counted once;
then recurse into the directory entries of a successful listing. -/
def recursiveCount : FSTree → Nat
  | .node true es => 1 + recursiveCountEntries es
  | .node false _ => 1

/-- The loop of lines 103-106: only entries with the directory mode bit
are recursed into; file entries contribute nothing. -/
def recursiveCountEntries : FSEntries → Nat
  | .nil => 0
  | .consFile _ rest => recursiveCountEntries rest
  | .consDir _ sub rest => recursiveCount sub + recursiveCountEntries rest

end

/-! ### `count_files_local` (src/main.py lines 113-139) via `os.walk`

`os.walk` (top-down, default `onerror=None`) yields one
`(root, dirs, files)` triple per readable directory — a directory whose
`scandir` fails is silently skipped and contributes nothing — and then
recurses into the subdirectories.  The loop at lines 124-133 counts the
`files` component of each triple with the same matching logic as the
remote scan.  (The `file_list` accumulation of lines 132-133 is a third
result component no verified claim refers to; it is not modelled.)
-/

/-- The `files` component of one `os.walk` triple: the file entries of a
directory listing, in order. -/
def dirFileNames : FSEntries → List String
  | .nil => []
  | .consFile n rest => n :: dirFileNames rest
  | .consDir _ _ rest => dirFileNames rest

mutual

/-- The file names yielded by `os.walk`, in processing order: the files
of a readable root, then those of its subtrees, top-down; an unreadable
directory yields nothing. -/
def osWalkFiles : FSTree → List String
  | .node true es => dirFileNames es ++ walkSub es
  | .node false _ => []

/-- `os.walk` recursion into the subdirectory entries of a listing. -/
def walkSub : FSEntries → List String
  | .nil => []
  | .consFile _ rest => walkSub rest
  | .consDir _ sub rest => osWalkFiles sub ++ walkSub rest

end

/-- `count_files_local(directory, extensions)` (lines 113-139), restricted
to its `(file_counts, total_files)` result: fold the shared per-file body
over the file names `os.walk` yields. -/
def countFilesLocal (extensions : List String) (t : FSTree) : List (String × Nat) × Nat :=
  (osWalkFiles t).foldl (processFileL extensions) (initCounts extensions, 0)

/-! ### The files a scan processes, and pruning of unreadable subtrees -/

mutual

/-- The file names processed by `recursive_search`, in order: nothing for
an unreadable directory, the flattened listing otherwise. -/
def treeFiles : FSTree → List String
  | .node true es => entFiles es
  | .node false _ => []

/-- File names contributed by a listing, in loop order. -/
def entFiles : FSEntries → List String
  | .nil => []
  | .consFile n rest => n :: entFiles rest
  | .consDir _ sub rest => treeFiles sub ++ entFiles rest

end

mutual

/-- The tree with every subtree whose listing fails removed: an
unreadable directory becomes an empty readable one at the root, and is
dropped from its parent's listing everywhere below. -/
def pruneTree : FSTree → FSTree
  | .node true es => .node true (pruneEntries es)
  | .node false _ => .node true .nil

/-- Drop unreadable directory entries from a listing and prune the
readable ones. -/
def pruneEntries : FSEntries → FSEntries
  | .nil => .nil
  | .consFile n rest => .consFile n (pruneEntries rest)
  | .consDir nm sub rest =>
    if isReadableRoot sub then .consDir nm (pruneTree sub) (pruneEntries rest)
    else pruneEntries rest

end

mutual

/-- Every directory of the tree is readable. -/
def allReadable : FSTree → Bool
  | .node r es => r && allReadableEntries es

/-- Every directory among the entries is readable. -/
def allReadableEntries : FSEntries → Bool
  | .nil => true
  | .consFile _ rest => allReadableEntries rest
  | .consDir _ sub rest => allReadable sub && allReadableEntries rest

end

/-! ### Remote child-path construction (src/main.py lines 105 and 154) -/

/-- `item_path = f"{path}/{item.filename}" if path != "/" else
f"/{item.filename}"`: a separator is inserted unconditionally unless the
parent is exactly the root path. -/
def sshJoin (path : String) (name : String) : String :=
  if path ≠ "/" then path ++ "/" ++ name else "/" ++ name

/-! ### Configuration and `validate_config` (src/main.py lines 38-55) -/

/-- The configuration dictionary: `none` models an absent key. -/
structure PyConfig where
  connection_type : Option String
  directory : Option String
  extensions : Option (List String)
  host : Option String
  username : Option String
  password : Option String
  port : Option Nat

/-- `validate_config` (lines 38-55): the keys `connection_type`,
`directory`, `extensions` are required in that order; `connection_type`
must be `"local"` or `"ssh"`; when it is `"ssh"`, the keys `host`,
`username`, `password` are also required, in that order.  A missing or
invalid item raises `ValueError` (modelled as `Except.error` carrying the
offending key). -/
def validateConfig (c : PyConfig) : Except String Unit :=
  if c.connection_type.isNone then .error "connection_type"
  else if c.directory.isNone then .error "directory"
  else if c.extensions.isNone then .error "extensions"
  else if c.connection_type ≠ some "local" ∧ c.connection_type ≠ some "ssh" then
    .error "connection_type value"
  else if c.connection_type = some "ssh" then
    if c.host.isNone then .error "host"
    else if c.username.isNone then .error "username"
    else if c.password.isNone then .error "password"
    else .ok ()
  else .ok ()

/-- The first externally visible action of `run` (lines 174-198): `run`
calls `load_config`, which validates the configuration, before anything
else; only if validation succeeds and the connection type is `"ssh"` does
`connect_ssh` issue a connection attempt, at the port
`self.config.get("port", 22)` (line 68). -/
inductive FirstAction where
  | invalidConfig (key : String)
  | sshConnect (port : Nat)
  | localScanStart
deriving DecidableEq

/-- Sequencing of `run` (lines 174-198): validation failure surfaces
before any connection attempt; an `"ssh"` configuration reaching
`connect_ssh` uses the configured port or its default 22. -/
def runFirstAction (c : PyConfig) : FirstAction :=
  match validateConfig c with
  | .error k => .invalidConfig k
  | .ok _ =>
    if c.connection_type = some "ssh" then .sshConnect (c.port.getD 22)
    else .localScanStart

/-! ### `disconnect_ssh` (src/main.py lines 78-83) -/

/-- The two client attributes of `FileCounter`: `none` models the initial
`None`, `some b` models a created client whose channel-open flag is `b`
(paramiko `close` on an already-closed client is a no-op). -/
structure SshClients where
  sftpClient : Option Bool
  sshClient : Option Bool
deriving DecidableEq

/-- Effect of `client.close()` on an attribute: nothing when the client
was never created, otherwise the client is (still) closed. -/
def closeClient : Option Bool → Option Bool
  | none => none
  | some _ => some false

/-- `disconnect_ssh` (lines 78-83): close the SFTP client if it exists,
then close the SSH client if it exists. -/
def disconnectSsh (s : SshClients) : SshClients :=
  { sftpClient := closeClient s.sftpClient, sshClient := closeClient s.sshClient }

/-! ### Disconnect invocations of `run` (src/main.py lines 192-219),
`connection_type = "ssh"` -/

/-- Exit paths of the `try` body of `run` on the remote branch:
`connect_ssh` failing (it calls `sys.exit(1)`, raising `SystemExit`,
before line 196); `KeyboardInterrupt` or another exception escaping
`count_files_ssh` (still before line 196); or an exception escaping the
result printing of lines 201-211, after the inline disconnect of
line 196 has run.  The body has no exceptionless completion on the
remote branch: line 211 reads `file_list`, which only the local branch
(line 198) assigns, so every remote run whose connect and scan return
raises `UnboundLocalError` at line 211 and exits through
`printException`. -/
inductive BodyResult where
  | connectFailure
  | scanKeyboardInterrupt
  | scanException
  | printException
deriving DecidableEq

/-- `disconnect_ssh` calls made inside the `try` body: exactly the inline
call at line 196, which has run iff `connect_ssh` and `count_files_ssh`
both returned — iff the body went on to the result printing. -/
def tryBodyDisconnectCalls : BodyResult → Nat
  | .printException => 1
  | _ => 0

/-- Total `disconnect_ssh` calls on one remote run of `run`: the inline
call at line 196 when reached, plus the unconditional call in the
`finally` block (lines 217-219), which runs on every exit path. -/
def runDisconnectCalls (r : BodyResult) : Nat := tryBodyDisconnectCalls r + 1

/-! ### The scenario tree of spec.md section 8

Root containing `a.TXT`, `b.txt` and a subdirectory `d/` containing
`c.py`; everything readable. -/

/-- The three-file scenario tree. -/
def scenarioTree : FSTree :=
  .node true
    (.consFile "a.TXT"
      (.consFile "b.txt"
        (.consDir "d" (.node true (.consFile "c.py" .nil)) .nil)))

/-- An `"ssh"` configuration whose `password` key is absent. -/
def missingPasswordConfig : PyConfig :=
  { connection_type := some "ssh", directory := some "/data",
    extensions := some [".txt"], host := some "h", username := some "u",
    password := none, port := none }

/-! ## Helper lemmas on the count dictionary -/

theorem countsSum_cons (a : String × Nat) (d : List (String × Nat)) :
    countsSum (a :: d) = a.2 + countsSum d := by
  simp [countsSum]

theorem incr_keys (d : List (String × Nat)) (k : String) :
    (incr d k).map Prod.fst = d.map Prod.fst := by
  induction d with
  | nil => rfl
  | cons a rest ih =>
    obtain ⟨a1, a2⟩ := a
    by_cases h : a1 = k <;> simp [incr, h, ih]

theorem incr_sum (d : List (String × Nat)) (k : String)
    (h : k ∈ d.map Prod.fst) : countsSum (incr d k) = countsSum d + 1 := by
  induction d with
  | nil => simp at h
  | cons a rest ih =>
    obtain ⟨a1, a2⟩ := a
    by_cases hk : a1 = k
    · simp only [incr, if_pos hk, countsSum_cons]
      omega
    · have hmem : k ∈ rest.map Prod.fst := by
        simp only [List.map_cons, List.mem_cons] at h
        rcases h with h | h
        · exact absurd h.symm hk
        · exact h
      simp only [incr, if_neg hk, countsSum_cons, ih hmem]
      omega

theorem dictInsert0_keys_mono (d : List (String × Nat)) (k e : String)
    (h : e ∈ d.map Prod.fst) : e ∈ (dictInsert0 d k).map Prod.fst := by
  unfold dictInsert0
  split
  · exact h
  · simp only [List.map_append, List.mem_append]
    exact Or.inl h

theorem dictInsert0_keys_self (d : List (String × Nat)) (k : String) :
    k ∈ (dictInsert0 d k).map Prod.fst := by
  unfold dictInsert0
  split
  · assumption
  · simp

theorem dictInsert0_sum (d : List (String × Nat)) (k : String) :
    countsSum (dictInsert0 d k) = countsSum d := by
  unfold dictInsert0
  split
  · rfl
  · simp [countsSum]

theorem foldl_dictInsert0_keys (exts : List String) :
    ∀ (acc : List (String × Nat)) (e : String),
      e ∈ exts ∨ e ∈ acc.map Prod.fst →
      e ∈ (exts.foldl dictInsert0 acc).map Prod.fst := by
  induction exts with
  | nil =>
    intro acc e h
    simpa using h
  | cons x rest ih =>
    intro acc e h
    simp only [List.foldl_cons]
    apply ih
    rcases h with h | h
    · rcases List.mem_cons.mp h with rfl | h
      · exact Or.inr (dictInsert0_keys_self acc e)
      · exact Or.inl h
    · exact Or.inr (dictInsert0_keys_mono acc x e h)

theorem initCounts_keys (exts : List String) (e : String) (h : e ∈ exts) :
    e ∈ (initCounts exts).map Prod.fst :=
  foldl_dictInsert0_keys exts [] e (Or.inl h)

theorem foldl_dictInsert0_sum (exts : List String) :
    ∀ acc, countsSum (exts.foldl dictInsert0 acc) = countsSum acc := by
  induction exts with
  | nil => intro acc; rfl
  | cons x rest ih =>
    intro acc
    simp only [List.foldl_cons]
    rw [ih, dictInsert0_sum]

theorem countsOk_init (exts : List String) : countsOk exts (initCounts exts, 0) := by
  constructor
  · show (0 : Nat) = countsSum (initCounts exts)
    rw [show initCounts exts = exts.foldl dictInsert0 [] from rfl, foldl_dictInsert0_sum]
    rfl
  · intro e he
    exact initCounts_keys exts e he

theorem countsOk_processFileL (exts : List String) (p : List (String × Nat) × Nat)
    (n : String) (h : countsOk exts p) : countsOk exts (processFileL exts p n) := by
  obtain ⟨hsum, hkeys⟩ := h
  unfold processFileL
  by_cases hc : exts.contains (pyLower (pySuffix n)) = true
  · have hmem : pyLower (pySuffix n) ∈ exts := by simpa using hc
    have hkey : pyLower (pySuffix n) ∈ p.1.map Prod.fst := hkeys _ hmem
    simp only [hc, if_true]
    refine ⟨?_, ?_⟩
    · show p.2 + 1 = countsSum (incr p.1 (pyLower (pySuffix n)))
      rw [incr_sum p.1 _ hkey, hsum]
    · intro e he
      show e ∈ (incr p.1 (pyLower (pySuffix n))).map Prod.fst
      rw [incr_keys]
      exact hkeys e he
  · simp only [Bool.not_eq_true] at hc
    simp only [hc, Bool.false_eq_true, if_false]
    exact ⟨hsum, hkeys⟩

theorem countsOk_foldl (exts : List String) (fs : List String) :
    ∀ p, countsOk exts p → countsOk exts (fs.foldl (processFileL exts) p) := by
  induction fs with
  | nil => intro p h; exact h
  | cons n rest ih =>
    intro p h
    exact ih _ (countsOk_processFileL exts p n h)

/-! ## The remote scan as a fold over the processed-file sequence -/

mutual

theorem countsOf_recursiveSearch (exts : List String) :
    (t : FSTree) → (st : ScanState) →
    countsOf (recursiveSearch exts t st)
      = (treeFiles t).foldl (processFileL exts) (countsOf st)
  | .node true es, st => by
    rw [show recursiveSearch exts (.node true es) st
          = searchEntries exts es (pbarTick st) from rfl,
        countsOf_searchEntries exts es (pbarTick st)]
    rfl
  | .node false _, _ => rfl

theorem countsOf_searchEntries (exts : List String) :
    (es : FSEntries) → (st : ScanState) →
    countsOf (searchEntries exts es st)
      = (entFiles es).foldl (processFileL exts) (countsOf st)
  | .nil, _ => rfl
  | .consFile n rest, st => by
    rw [show searchEntries exts (.consFile n rest) st
          = searchEntries exts rest (processFileEntry exts st n) from rfl,
        countsOf_searchEntries exts rest (processFileEntry exts st n)]
    rfl
  | .consDir nm sub rest, st => by
    rw [show searchEntries exts (.consDir nm sub rest) st
          = searchEntries exts rest (recursiveSearch exts sub st) from rfl,
        countsOf_searchEntries exts rest (recursiveSearch exts sub st),
        countsOf_recursiveSearch exts sub st,
        show entFiles (.consDir nm sub rest) = treeFiles sub ++ entFiles rest from rfl,
        List.foldl_append]

end

/-! ## The progress count of the remote scan -/

mutual

theorem pbar_recursiveSearch (exts : List String) :
    (t : FSTree) → (st : ScanState) →
    (recursiveSearch exts t st).pbar = st.pbar + recursiveCount t
  | .node true es, st => by
    rw [show recursiveSearch exts (.node true es) st
          = searchEntries exts es (pbarTick st) from rfl,
        pbar_searchEntries exts es (pbarTick st)]
    show st.pbar + 1 + recursiveCountEntries es = st.pbar + (1 + recursiveCountEntries es)
    omega
  | .node false _, _ => rfl

theorem pbar_searchEntries (exts : List String) :
    (es : FSEntries) → (st : ScanState) →
    (searchEntries exts es st).pbar = st.pbar + recursiveCountEntries es
  | .nil, _ => rfl
  | .consFile n rest, st => by
    rw [show searchEntries exts (.consFile n rest) st
          = searchEntries exts rest (processFileEntry exts st n) from rfl,
        pbar_searchEntries exts rest (processFileEntry exts st n)]
    rfl
  | .consDir nm sub rest, st => by
    rw [show searchEntries exts (.consDir nm sub rest) st
          = searchEntries exts rest (recursiveSearch exts sub st) from rfl,
        pbar_searchEntries exts rest (recursiveSearch exts sub st),
        pbar_recursiveSearch exts sub st]
    show st.pbar + recursiveCount sub + recursiveCountEntries rest
        = st.pbar + (recursiveCount sub + recursiveCountEntries rest)
    omega

end

/-! ## Pruning unreadable subtrees does not change what a scan processes -/

mutual

theorem treeFiles_pruneTree : (t : FSTree) → treeFiles (pruneTree t) = treeFiles t
  | .node true es => by
    show entFiles (pruneEntries es) = entFiles es
    exact entFiles_pruneEntries es
  | .node false _ => rfl

theorem entFiles_pruneEntries : (es : FSEntries) → entFiles (pruneEntries es) = entFiles es
  | .nil => rfl
  | .consFile n rest => by
    show n :: entFiles (pruneEntries rest) = n :: entFiles rest
    rw [entFiles_pruneEntries rest]
  | .consDir nm sub rest => by
    rw [show pruneEntries (.consDir nm sub rest)
          = (if isReadableRoot sub then .consDir nm (pruneTree sub) (pruneEntries rest)
             else pruneEntries rest) from rfl]
    by_cases h : isReadableRoot sub = true
    · rw [if_pos h]
      show treeFiles (pruneTree sub) ++ entFiles (pruneEntries rest)
          = treeFiles sub ++ entFiles rest
      rw [treeFiles_pruneTree sub, entFiles_pruneEntries rest]
    · rw [if_neg h, entFiles_pruneEntries rest]
      show entFiles rest = treeFiles sub ++ entFiles rest
      match sub with
      | .node true _ => exact absurd rfl h
      | .node false _ => rfl

end

theorem dirFileNames_pruneEntries :
    (es : FSEntries) → dirFileNames (pruneEntries es) = dirFileNames es
  | .nil => rfl
  | .consFile n rest => by
    show n :: dirFileNames (pruneEntries rest) = n :: dirFileNames rest
    rw [dirFileNames_pruneEntries rest]
  | .consDir nm sub rest => by
    rw [show pruneEntries (.consDir nm sub rest)
          = (if isReadableRoot sub then .consDir nm (pruneTree sub) (pruneEntries rest)
             else pruneEntries rest) from rfl]
    by_cases h : isReadableRoot sub = true
    · rw [if_pos h]
      show dirFileNames (pruneEntries rest) = dirFileNames rest
      exact dirFileNames_pruneEntries rest
    · rw [if_neg h, dirFileNames_pruneEntries rest]
      rfl

mutual

theorem osWalkFiles_pruneTree : (t : FSTree) → osWalkFiles (pruneTree t) = osWalkFiles t
  | .node true es => by
    show dirFileNames (pruneEntries es) ++ walkSub (pruneEntries es)
        = dirFileNames es ++ walkSub es
    rw [dirFileNames_pruneEntries es, walkSub_pruneEntries es]
  | .node false _ => rfl

theorem walkSub_pruneEntries : (es : FSEntries) → walkSub (pruneEntries es) = walkSub es
  | .nil => rfl
  | .consFile n rest => by
    show walkSub (pruneEntries rest) = walkSub rest
    exact walkSub_pruneEntries rest
  | .consDir nm sub rest => by
    rw [show pruneEntries (.consDir nm sub rest)
          = (if isReadableRoot sub then .consDir nm (pruneTree sub) (pruneEntries rest)
             else pruneEntries rest) from rfl]
    by_cases h : isReadableRoot sub = true
    · rw [if_pos h]
      show osWalkFiles (pruneTree sub) ++ walkSub (pruneEntries rest)
          = osWalkFiles sub ++ walkSub rest
      rw [osWalkFiles_pruneTree sub, walkSub_pruneEntries rest]
    · rw [if_neg h, walkSub_pruneEntries rest]
      show walkSub rest = osWalkFiles sub ++ walkSub rest
      match sub with
      | .node true _ => exact absurd rfl h
      | .node false _ => rfl

end

mutual

theorem allReadable_pruneTree : (t : FSTree) → allReadable (pruneTree t) = true
  | .node true es => by
    show (true && allReadableEntries (pruneEntries es)) = true
    rw [allReadableEntries_pruneEntries es]
    rfl
  | .node false _ => rfl

theorem allReadableEntries_pruneEntries :
    (es : FSEntries) → allReadableEntries (pruneEntries es) = true
  | .nil => rfl
  | .consFile n rest => by
    show allReadableEntries (pruneEntries rest) = true
    exact allReadableEntries_pruneEntries rest
  | .consDir nm sub rest => by
    rw [show pruneEntries (.consDir nm sub rest)
          = (if isReadableRoot sub then .consDir nm (pruneTree sub) (pruneEntries rest)
             else pruneEntries rest) from rfl]
    by_cases h : isReadableRoot sub = true
    · rw [if_pos h]
      show (allReadable (pruneTree sub) && allReadableEntries (pruneEntries rest)) = true
      rw [allReadable_pruneTree sub, allReadableEntries_pruneEntries rest]
      rfl
    · rw [if_neg h]
      exact allReadableEntries_pruneEntries rest

end

/-! ## Claims -/

/-- Claim C1, counterexample: the claim says an empty configured
extension list matches every filename and the three-file scenario scan
totals 3.  In the code, `file_ext in extensions` over the empty list is
always false, so `a.TXT` is rejected and both scans of the scenario tree
total 0, not 3. -/
theorem claim_C1_counterexample :
    matchesExt "a.TXT" [] = false
    ∧ (countFilesLocal [] scenarioTree).2 ≠ 3
    ∧ (countFilesSsh [] scenarioTree).totalFiles ≠ 3 := by
  refine ⟨rfl, by decide, by decide⟩

/-- Claim C1, amended: when the configured extension list is empty the
classifier matches no filename (membership in the empty list is false),
so a scan with `extensions = []` counts no file at all; over the
three-file scenario tree both the local and the remote scan total 0. -/
theorem claim_C1 :
    (∀ f : String, matchesExt f [] = false)
    ∧ (countFilesLocal [] scenarioTree).2 = 0
    ∧ (countFilesSsh [] scenarioTree).totalFiles = 0 := by
  refine ⟨fun f => rfl, by decide, by decide⟩

/-- Claim C2: at every observation point during or after a scan, local or
remote, the total file count equals the sum of the per-extension
counters.  The invariant `countsOk` holds of the initial state, is
preserved by the only two state transitions a scan performs (the progress
tick and the per-file processing step), hence holds after every traversal
step and of every prefix of the processed-file sequence, and in
particular of the final results of `count_files_ssh` and
`count_files_local`. -/
theorem claim_C2 (exts : List String) :
    countsOk exts (countsOf (initScanState exts))
    ∧ (∀ st, countsOk exts (countsOf st) → countsOk exts (countsOf (pbarTick st)))
    ∧ (∀ st n, countsOk exts (countsOf st) →
        countsOk exts (countsOf (processFileEntry exts st n)))
    ∧ (∀ t st, countsOk exts (countsOf st) →
        countsOk exts (countsOf (recursiveSearch exts t st)))
    ∧ (∀ t, (countFilesSsh exts t).totalFiles = countsSum (countFilesSsh exts t).fileCounts)
    ∧ (∀ (fs : List String) (p : List (String × Nat) × Nat),
        countsOk exts p → countsOk exts (fs.foldl (processFileL exts) p))
    ∧ (∀ t, (countFilesLocal exts t).2 = countsSum (countFilesLocal exts t).1) := by
  have hinit : countsOk exts (countsOf (initScanState exts)) := countsOk_init exts
  have hstep : ∀ st n, countsOk exts (countsOf st) →
      countsOk exts (countsOf (processFileEntry exts st n)) := by
    intro st n h
    exact countsOk_processFileL exts (countsOf st) n h
  have hrs : ∀ t st, countsOk exts (countsOf st) →
      countsOk exts (countsOf (recursiveSearch exts t st)) := by
    intro t st h
    rw [countsOf_recursiveSearch exts t st]
    exact countsOk_foldl exts (treeFiles t) (countsOf st) h
  refine ⟨hinit, fun st h => h, hstep, hrs, ?_,
    fun fs p h => countsOk_foldl exts fs p h, ?_⟩
  · intro t
    exact (hrs t (initScanState exts) hinit).1
  · intro t
    exact (countsOk_foldl exts (osWalkFiles t) (initCounts exts, 0) (countsOk_init exts)).1

/-- Witness for C2 at a concrete scan state. -/
theorem claim_C2_witness :
    countsOk [".txt"]
      (countsOf (recursiveSearch [".txt"] scenarioTree (initScanState [".txt"]))) :=
  (claim_C2 [".txt"]).2.2.2.1 scenarioTree (initScanState [".txt"]) (claim_C2 [".txt"]).1

/-- Claim C3: for a non-empty extension list the classifier returns true
iff the lowercased suffix of the filename (leading dot included, empty
for suffix-less names) is a member of the list; matching is
case-insensitive on the filename, and the scenario `a.TXT`, `b.txt`,
`d/c.py` with extensions `[".txt"]` yields per-extension counts
`{".txt": 2}` and total 2, on both the local and the remote scan. -/
theorem claim_C3 (f : String) (E : List String) (hE : E ≠ []) :
    (matchesExt f E = true ↔ pyLower (pySuffix f) ∈ E)
    ∧ countFilesLocal [".txt"] scenarioTree = ([(".txt", 2)], 2)
    ∧ (countFilesSsh [".txt"] scenarioTree).fileCounts = [(".txt", 2)]
    ∧ (countFilesSsh [".txt"] scenarioTree).totalFiles = 2 := by
  refine ⟨?_, by decide, by decide, by decide⟩
  simp [matchesExt]

/-- Witness for C3 at a concrete filename and extension list. -/
theorem claim_C3_witness :
    matchesExt "a.TXT" [".txt"] = true ↔ pyLower (pySuffix "a.TXT") ∈ [".txt"] :=
  (claim_C3 "a.TXT" [".txt"] (by decide)).1

/-- Claim C4: a failing directory listing does not abort the scan; the
failing subtree contributes 0 and every other subtree is still fully
traversed, so the returned counts (both remote and local) equal those of
scanning the tree with every failing subtree removed — in particular a
tree in which exactly one directory fails.  The pruned tree has no
failing directory left. -/
theorem claim_C4 (exts : List String) (t : FSTree) :
    (countFilesSsh exts t).fileCounts = (countFilesSsh exts (pruneTree t)).fileCounts
    ∧ (countFilesSsh exts t).totalFiles = (countFilesSsh exts (pruneTree t)).totalFiles
    ∧ countFilesLocal exts t = countFilesLocal exts (pruneTree t)
    ∧ allReadable (pruneTree t) = true := by
  have h : countsOf (countFilesSsh exts t) = countsOf (countFilesSsh exts (pruneTree t)) := by
    show countsOf (recursiveSearch exts t (initScanState exts))
        = countsOf (recursiveSearch exts (pruneTree t) (initScanState exts))
    rw [countsOf_recursiveSearch, countsOf_recursiveSearch, treeFiles_pruneTree]
  have h1 : (countFilesSsh exts t).fileCounts
      = (countFilesSsh exts (pruneTree t)).fileCounts := congrArg Prod.fst h
  have h2 : (countFilesSsh exts t).totalFiles
      = (countFilesSsh exts (pruneTree t)).totalFiles := congrArg Prod.snd h
  refine ⟨h1, h2, ?_, allReadable_pruneTree t⟩
  show (osWalkFiles t).foldl (processFileL exts) (initCounts exts, 0)
      = (osWalkFiles (pruneTree t)).foldl (processFileL exts) (initCounts exts, 0)
  rw [osWalkFiles_pruneTree]

/-- Claim C5, counterexample: the claim says the child path is built with
exactly one separator regardless of trailing separators on the parent.
The code only special-cases the parent `"/"`; for the parent `"/a/"` and
entry `"b"` it produces `"/a//b"` with a doubled separator instead of the
collapsed `"/a/b"`. -/
theorem claim_C5_counterexample :
    sshJoin "/a/" "b" = "/a//b" ∧ sshJoin "/a/" "b" ≠ "/a/b" := by
  refine ⟨by decide, by decide⟩

/-- Claim C5, amended: the remote traversal builds the child path by
unconditionally inserting one separator between parent and entry name
whenever the parent is not exactly `"/"` (and prepends a single separator
when it is), with no collapsing: a parent with a trailing separator
therefore yields a doubled separator. -/
theorem claim_C5 (path name : String) (h : path ≠ "/") :
    sshJoin path name = path ++ "/" ++ name := by
  simp [sshJoin, h]

/-- Witness for C5 at a concrete parent and entry name. -/
theorem claim_C5_witness : sshJoin "/a" "b" = "/a" ++ "/" ++ "b" :=
  claim_C5 "/a" "b" (by decide)

/-- Claim C6, counterexample: the claim says an extension configured
without a leading dot or in upper case matches the same files as its
normalized lowercase dot-prefixed form.  The code never normalizes the
configured list: `"TXT"` and `"txt"` match nothing, while `".txt"`
matches, and the scenario scan configured with `["TXT"]` totals 0 where
`[".txt"]` totals 2. -/
theorem claim_C6_counterexample :
    matchesExt "a.TXT" ["TXT"] = false
    ∧ matchesExt "a.TXT" ["txt"] = false
    ∧ matchesExt "a.TXT" [".txt"] = true
    ∧ (countFilesLocal ["TXT"] scenarioTree).2 = 0
    ∧ (countFilesLocal [".txt"] scenarioTree).2 = 2 := by
  refine ⟨by decide, by decide, by decide, by decide, by decide⟩

/-- Claim C6, amended: configured extension strings are used verbatim,
with no case folding and no dot-prefixing; a single configured extension
matches a filename iff it is literally equal to the filename's lowercased
dot-suffix, so an extension written in upper case or without its leading
dot matches no file with a suffix. -/
theorem claim_C6 (f e : String) :
    matchesExt f [e] = true ↔ e = pyLower (pySuffix f) := by
  simp [matchesExt, eq_comm]

/-- Claim C7, counterexample: the claim says disconnect is invoked
exactly once on every exit path of a remote run.  On the exit path every
remote run with a successful connect and scan takes — the result
printing raising at line 211, after the inline disconnect at line 196
has already run — `disconnect_ssh` is invoked twice: once inline and
once in the `finally` block. -/
theorem claim_C7_counterexample :
    runDisconnectCalls BodyResult.printException = 2
    ∧ runDisconnectCalls BodyResult.printException ≠ 1 := by
  refine ⟨rfl, by decide⟩

/-- Claim C7, amended: on every exit path of a remote run
`disconnect_ssh` is invoked at least once (the `finally` block
guarantees one call) and at most twice; it is invoked twice exactly when
the scan returned, so that the inline call at line 196 ran before the
result printing raised — the path every remote run with successful
connect and scan takes — and once on the paths aborting before
line 196. -/
theorem claim_C7 (r : BodyResult) :
    1 ≤ runDisconnectCalls r ∧ runDisconnectCalls r ≤ 2
    ∧ (runDisconnectCalls r = 2 ↔ r = BodyResult.printException) := by
  cases r <;> refine ⟨by decide, by decide, by decide⟩

/-- Claim C8: `disconnect_ssh` is idempotent — calling it when no client
was ever created leaves the initial state unchanged (both `if` guards are
false), and a second call after a first one leaves the state unchanged,
since closing an already-closed client is a no-op. -/
theorem claim_C8 :
    disconnectSsh { sftpClient := none, sshClient := none }
      = { sftpClient := none, sshClient := none }
    ∧ ∀ s : SshClients, disconnectSsh (disconnectSsh s) = disconnectSsh s := by
  refine ⟨rfl, ?_⟩
  intro s
  obtain ⟨sftp, ssh⟩ := s
  cases sftp <;> cases ssh <;> rfl

/-- Claim C9: for a configuration with `connection_type = "ssh"`, if any
of `host`, `username`, `password` is absent then validation fails with a
`ValueError` and `run` never reaches a connection attempt; a validated
`"ssh"` configuration connects at the configured port where `port` is
optional with default 22 (and validation never inspects `port`). -/
theorem claim_C9 (c : PyConfig) (hssh : c.connection_type = some "ssh") :
    ((c.host = none ∨ c.username = none ∨ c.password = none) →
        (∃ m, validateConfig c = Except.error m)
        ∧ ∀ p, runFirstAction c ≠ FirstAction.sshConnect p)
    ∧ (validateConfig c = Except.ok () →
        runFirstAction c = FirstAction.sshConnect (c.port.getD 22))
    ∧ (∀ p, validateConfig { c with port := p } = validateConfig c) := by
  have herr : (c.host = none ∨ c.username = none ∨ c.password = none) →
      ∃ m, validateConfig c = Except.error m := by
    intro hmiss
    by_cases hd : c.directory.isNone = true
    · exact ⟨"directory", by simp [validateConfig, hssh, hd]⟩
    by_cases hx : c.extensions.isNone = true
    · exact ⟨"extensions", by simp [validateConfig, hssh, hd, hx]⟩
    by_cases hh : c.host.isNone = true
    · exact ⟨"host", by simp [validateConfig, hssh, hd, hx, hh]⟩
    by_cases hu : c.username.isNone = true
    · exact ⟨"username", by simp [validateConfig, hssh, hd, hx, hh, hu]⟩
    by_cases hp : c.password.isNone = true
    · exact ⟨"password", by simp [validateConfig, hssh, hd, hx, hh, hu, hp]⟩
    · exfalso
      rcases hmiss with h | h | h
      · exact hh (by simp [h])
      · exact hu (by simp [h])
      · exact hp (by simp [h])
  have hnotconn : (c.host = none ∨ c.username = none ∨ c.password = none) →
      ∀ p, runFirstAction c ≠ FirstAction.sshConnect p := by
    intro hmiss p hc
    obtain ⟨m, hm⟩ := herr hmiss
    simp [runFirstAction, hm] at hc
  have hok : validateConfig c = Except.ok () →
      runFirstAction c = FirstAction.sshConnect (c.port.getD 22) := by
    intro hv
    simp [runFirstAction, hv, hssh]
  exact ⟨fun hmiss => ⟨herr hmiss, hnotconn hmiss⟩, hok, fun p => rfl⟩

/-- Witness for C9 at a concrete configuration missing `password`. -/
theorem claim_C9_witness :
    (∃ m, validateConfig missingPasswordConfig = Except.error m)
    ∧ ∀ p, runFirstAction missingPasswordConfig ≠ FirstAction.sshConnect p :=
  (claim_C9 missingPasswordConfig rfl).1 (Or.inr (Or.inr rfl))

/-- Claim C10: over the same unchanged tree, the pre-pass
`count_directories_ssh` returns exactly the number of progress updates
the counting traversal `count_files_ssh` later emits: both visit the same
directories and count each visited directory once, directories whose
listing fails included. -/
theorem claim_C10 (exts : List String) (t : FSTree) :
    recursiveCount t = (countFilesSsh exts t).pbar := by
  show recursiveCount t = (recursiveSearch exts t (initScanState exts)).pbar
  rw [pbar_recursiveSearch exts t (initScanState exts)]
  show recursiveCount t = 0 + recursiveCount t
  omega

end DirScan
